import Mathlib

/-
Shallow embedding of the habit tracker (package habit: habit.go and the
store file). Timestamps are modelled as integers counting nanoseconds
since an arbitrary epoch; the local calendar is modelled by a fixed
timezone offset `off` in nanoseconds, so two instants fall on the same
local calendar date (equal year, month and day from Go's Date()) exactly
when they lie in the same offset-shifted day window. Go's
`int(d.Hours() / 24)` is modelled as truncated integer division of the
nanosecond difference by the nanoseconds in a day, which agrees with the
float computation on the representable range. The filesystem is a map
from paths to file contents, with the gob encoding abstracted to the
stored mapping itself (`Open` reads back exactly what `Save` wrote);
`corrupt` stands for a file that exists but cannot be read or decoded.
Following POSIX, opening the empty path reports not-exist and creating
the empty path fails.
-/

namespace HabitTracker

/-- Nanoseconds in 24 hours, the divisor in Go's
`now.Sub(last).Hours() / 24` and the length of a calendar day. -/
def nsPerDay : Int := 86400000000000

/-- Mirrors the Go struct `Habit`: Name, CurrentStreak (a Go int,
modelled as Int), LastDone (a time.Time, modelled as Int nanoseconds). -/
structure Habit where
  name : String
  currentStreak : Int
  lastDone : Int
  deriving DecidableEq, Repr

/-- Local calendar day number of instant `t` under fixed timezone offset
`off`: the floor of the shifted instant divided by a day. Two instants
have equal (year, month, day) triples from Go's `Date()` exactly when
their day numbers agree. -/
def epochDay (off t : Int) : Int := (t + off).fdiv nsPerDay

/-- Mirrors Go `sameDate`: the two timestamps have the same local
calendar date. -/
def sameDate (off t1 t2 : Int) : Bool := epochDay off t1 == epochDay off t2

/-- Mirrors Go `daysSince := int(now.Sub(last).Hours() / 24)`: truncated
division of the nanosecond difference by a day. -/
def daysBetween (last now : Int) : Int := (now - last).tdiv nsPerDay

/-- Store data: the Go `map[string]*Habit` as an association list with
unique keys. -/
abbrev StoreData := List (String × Habit)

/-- Mirrors a Go map read `data[key]`. -/
def lookupData : StoreData → String → Option Habit
  | [], _ => none
  | q :: rest, k => if q.1 = k then some q.2 else lookupData rest k

/-- Mirrors the store's `Set` (a Go map write `data[key] = hb`): replace
the binding if the key is present, otherwise add it. -/
def setData : StoreData → String → Habit → StoreData
  | [], k, h => [(k, h)]
  | q :: rest, k, h => if q.1 = k then (k, h) :: rest else q :: setData rest k h

/-- Contents of a store file: either a decodable gob encoding of a habit
mapping, or a file that cannot be read or decoded. -/
inductive FileContent where
  | good (d : StoreData)
  | corrupt
  deriving DecidableEq

/-- The filesystem: path to file contents, `none` when no file exists at
the path. -/
def FS := String → Option FileContent

/-- Mirrors `os.Create` followed by writing: bind `path` to contents `c`. -/
def updateFS (fs : FS) (path : String) (c : FileContent) : FS :=
  fun p => if p = path then some c else fs p

/-- Mirrors `os.Open(path)` in `OpenStore`: the empty path reports
not-exist (POSIX ENOENT), otherwise look the path up. -/
def osOpen (fs : FS) (path : String) : Option FileContent :=
  if path = "" then none else fs path

/-- Mirrors the Go struct `store`: the bound path and the habit mapping.
The mutex only serializes access and has no sequential content. -/
structure Store where
  path : String
  data : StoreData
  deriving DecidableEq

/-- Persistence failures, mirroring the wrapped errors of `Save` and
`OpenStore`; each carries the path. -/
inductive PersistErr where
  | createFailed (path : String)
  | decodeFailed (path : String)
  deriving DecidableEq, Repr

/-- Mirrors `OpenStore`: a missing file (including the empty path) gives
an empty store bound to the path; an unreadable or undecodable file is an
error; otherwise the store holds the decoded mapping. -/
def openStore (path : String) (fs : FS) : Except PersistErr Store :=
  match osOpen fs path with
  | none => .ok ⟨path, []⟩
  | some (.good d) => .ok ⟨path, d⟩
  | some .corrupt => .error (.decodeFailed path)

/-- Mirrors the store's `Save`: `os.Create` of the empty path fails
(POSIX ENOENT), otherwise the full mapping is written to the bound path,
overwriting any existing file. Gob encoding of this data never fails. -/
def saveStore (s : Store) (fs : FS) : Except PersistErr FS :=
  if s.path = "" then .error (.createFailed s.path)
  else .ok (updateFS fs s.path (.good s.data))

/-- Events reported by Track and PrintSummary, one per Fprintf message;
each carries the parameters the message interpolates. -/
inductive Event where
  | newHabit (name : String)
  | repeatSameDay (name : String)
  | streakReset (name : String) (daysSince : Int)
  | streakExtended (name : String) (newStreak : Int)
  | inactive (name : String) (daysSince : Int)
  | onStreak (name : String) (streak : Int)
  | noHabits
  deriving DecidableEq, Repr

/-- Errors `Track` can return: the out-of-order rejection (carrying the
habit name, now and last, as the Go error message does) or a failed save. -/
inductive TrackErr where
  | outOfOrder (name : String) (now last : Int)
  | persist (e : PersistErr)
  deriving DecidableEq, Repr

/-- Result of one `Track` call: the in-memory store after the call (Go
mutates it in place, so it is updated even when the subsequent save
fails), the filesystem, the messages written to the output, and the
returned error if any. -/
structure TrackOut where
  store : Store
  fs : FS
  events : List Event
  err : Option TrackErr

/-- Mirrors `Tracker.Track` at time `now` under timezone offset `off`.
Branches follow the Go switch in order: unknown name creates a streak-1
habit, saves, then prints; otherwise `now.Before(last)` rejects without
mutation; same calendar date keeps the streak; `daysSince > 0` resets the
streak to 1; the default increments it. Existing-habit branches print
before saving, so their message is emitted even when the save fails. -/
def track (off now : Int) (s : Store) (fs : FS) (name : String) : TrackOut :=
  match lookupData s.data name with
  | none =>
    let s' : Store := ⟨s.path, setData s.data name ⟨name, 1, now⟩⟩
    match saveStore s' fs with
    | .error e => ⟨s', fs, [], some (.persist e)⟩
    | .ok fs' => ⟨s', fs', [Event.newHabit name], none⟩
  | some hbt =>
    let daysSince : Int := daysBetween hbt.lastDone now
    if now < hbt.lastDone then
      ⟨s, fs, [], some (.outOfOrder name now hbt.lastDone)⟩
    else if sameDate off now hbt.lastDone then
      let s' : Store := ⟨s.path, setData s.data name { hbt with lastDone := now }⟩
      match saveStore s' fs with
      | .error e => ⟨s', fs, [Event.repeatSameDay name], some (.persist e)⟩
      | .ok fs' => ⟨s', fs', [Event.repeatSameDay name], none⟩
    else if 0 < daysSince then
      let s' : Store :=
        ⟨s.path, setData s.data name { hbt with currentStreak := 1, lastDone := now }⟩
      match saveStore s' fs with
      | .error e => ⟨s', fs, [Event.streakReset name daysSince], some (.persist e)⟩
      | .ok fs' => ⟨s', fs', [Event.streakReset name daysSince], none⟩
    else
      let s' : Store :=
        ⟨s.path,
          setData s.data name
            { hbt with currentStreak := hbt.currentStreak + 1, lastDone := now }⟩
      match saveStore s' fs with
      | .error e =>
        ⟨s', fs, [Event.streakExtended name (hbt.currentStreak + 1)], some (.persist e)⟩
      | .ok fs' =>
        ⟨s', fs', [Event.streakExtended name (hbt.currentStreak + 1)], none⟩

/-- Applies a list of `Track` calls in order, threading the in-memory
store and the filesystem exactly as the Go code does: a failed call
leaves whatever state `Track` produced (no rollback). -/
def runTrack (off : Int) : List (Int × String) → Store → FS → Store × FS
  | [], s, fs => (s, fs)
  | (now, name) :: rest, s, fs =>
    let r := track off now s fs name
    runTrack off rest r.store r.fs

/-- The loop body of `PrintSummary`: one message per habit, the inactive
message carrying `daysSince` when it is positive, otherwise the streak
message carrying `CurrentStreak`; names come from the habit record. -/
def summaryLines (now : Int) : StoreData → List Event
  | [] => []
  | q :: rest =>
    (if 0 < daysBetween q.2.lastDone now then
      Event.inactive q.2.name (daysBetween q.2.lastDone now)
    else
      Event.onStreak q.2.name q.2.currentStreak) :: summaryLines now rest

/-- Mirrors `Tracker.PrintSummary`: with no tracked habit print the
single no-habits message, otherwise one line per habit. -/
def printSummary (now : Int) (d : StoreData) : List Event :=
  if d.length < 1 then [Event.noHabits] else summaryLines now d

/-- The output sink of a Tracker, abstracted: stdout or an injected
writer. -/
inductive Output where
  | stdout
  | custom (id : Nat)
  deriving DecidableEq

/-- Mirrors the Go struct `Tracker`: an output sink and a store. -/
structure Tracker where
  output : Output
  store : Store

/-- Errors surfaced by `NewTracker`: the store-open failure or a failed
functional option. -/
inductive TrackerError where
  | persist (e : PersistErr)
  | validation (msg : String)
  deriving DecidableEq, Repr

/-- A functional option, mirroring the Go `option` closure type. -/
def TrackerOpt := Tracker → Except TrackerError Tracker

/-- Mirrors `WithStore`: wire the given store into the tracker. (The Go
nil check has no counterpart here, since the embedding has no nil.) -/
def WithStore (s : Store) : TrackerOpt := fun t => .ok { t with store := s }

/-- Mirrors `WithOutput`: wire the given sink into the tracker. -/
def WithOutput (o : Output) : TrackerOpt := fun t => .ok { t with output := o }

/-- The option-application loop of `NewTracker`: apply each in order,
stopping at the first error. -/
def applyOpts : List TrackerOpt → Tracker → Except TrackerError Tracker
  | [], t => .ok t
  | o :: rest, t =>
    match o t with
    | .error e => .error e
    | .ok t' => applyOpts rest t'

/-- Mirrors `NewTracker`: always open the store file at the hardcoded
path "habit.store" first; on failure return that error before any option
runs; otherwise start from stdout and the opened store and apply the
options. -/
def NewTracker (fs : FS) (opts : List TrackerOpt) : Except TrackerError Tracker :=
  match openStore "habit.store" fs with
  | .error e => .error (.persist e)
  | .ok s => applyOpts opts { output := Output.stdout, store := s }

/-- Sets applied in order to a store, for the round-trip property: each
`Set` upserts one binding and leaves the bound path unchanged. -/
def applySets (sets : List (String × Habit)) (s : Store) : Store :=
  ⟨s.path, sets.foldl (fun d p => setData d p.1 p.2) s.data⟩

/-- A filesystem whose only file is an undecodable "habit.store". -/
def fsBadDefault : FS :=
  fun p => if p = "habit.store" then some FileContent.corrupt else none

/-- The empty filesystem. -/
def fsEmpty : FS := fun _ => none

end HabitTracker

namespace HabitTracker

/-- C1: for a habit already in the store, Track at a time strictly before
the stored lastDone returns the out-of-order error carrying the habit
name, now and last, emits nothing, and leaves both the store and the
filesystem unchanged. -/
theorem track_out_of_order_rejects (off now : Int) (s : Store) (fs : FS)
    (name : String) (hbt : Habit)
    (hlook : lookupData s.data name = some hbt)
    (hbefore : now < hbt.lastDone) :
    track off now s fs name =
      ⟨s, fs, [], some (TrackErr.outOfOrder name now hbt.lastDone)⟩ := by
  simp [track, hlook, hbefore]

/-- Witness for C1 at a concrete store: habit "run" last done at time
1000, tracked at time 5. -/
theorem track_out_of_order_rejects_witness :
    lookupData [("run", ⟨"run", 7, 1000⟩)] "run" = some ⟨"run", 7, 1000⟩ ∧
    (5 : Int) < (1000 : Int) ∧
    track 0 5 ⟨"p", [("run", ⟨"run", 7, 1000⟩)]⟩ fsEmpty "run" =
      ⟨⟨"p", [("run", ⟨"run", 7, 1000⟩)]⟩, fsEmpty, [],
        some (TrackErr.outOfOrder "run" 5 1000)⟩ :=
  ⟨by decide, by decide,
    track_out_of_order_rejects 0 5 ⟨"p", [("run", ⟨"run", 7, 1000⟩)]⟩ fsEmpty
      "run" ⟨"run", 7, 1000⟩ (by decide) (by decide)⟩

/-- C2: for a habit already in the store, when now is not before the
stored lastDone and the two instants share a calendar date, Track leaves
currentStreak unchanged, sets lastDone to now, and emits the
repeat-same-day message; no assumption on daysSince is needed, so this
branch takes precedence over the daysSince computation. -/
theorem track_same_day_keeps_streak (off now : Int) (s : Store) (fs : FS)
    (name : String) (hbt : Habit)
    (hlook : lookupData s.data name = some hbt)
    (hnb : ¬ now < hbt.lastDone)
    (hsd : sameDate off now hbt.lastDone = true) :
    (track off now s fs name).store.data =
      setData s.data name { hbt with lastDone := now } ∧
    (track off now s fs name).events = [Event.repeatSameDay name] := by
  unfold track
  rw [hlook]
  simp only [hnb, if_false, hsd, if_true]
  cases hs : saveStore ⟨s.path, setData s.data name { hbt with lastDone := now }⟩ fs <;>
    simp [hs]

/-- Witness for C2: habit "run" with streak 7 last done at time 1000,
tracked at time 2000 the same day. -/
theorem track_same_day_keeps_streak_witness :
    lookupData [("run", ⟨"run", 7, 1000⟩)] "run" = some ⟨"run", 7, 1000⟩ ∧
    ¬ (2000 : Int) < (1000 : Int) ∧
    sameDate 0 2000 1000 = true ∧
    (track 0 2000 ⟨"p", [("run", ⟨"run", 7, 1000⟩)]⟩ fsEmpty "run").store.data =
      setData [("run", ⟨"run", 7, 1000⟩)] "run" ⟨"run", 7, 2000⟩ ∧
    (track 0 2000 ⟨"p", [("run", ⟨"run", 7, 1000⟩)]⟩ fsEmpty "run").events =
      [Event.repeatSameDay "run"] :=
  ⟨by decide, by decide, by decide,
    track_same_day_keeps_streak 0 2000 ⟨"p", [("run", ⟨"run", 7, 1000⟩)]⟩
      fsEmpty "run" ⟨"run", 7, 1000⟩ (by decide) (by decide) (by decide)⟩

/-- C3: for a habit already in the store, when now is not before the
stored lastDone, the dates differ, and daysSince is positive, Track
resets currentStreak to 1, sets lastDone to now, and emits the
streak-reset message carrying daysSince. -/
theorem track_gap_resets_streak (off now : Int) (s : Store) (fs : FS)
    (name : String) (hbt : Habit)
    (hlook : lookupData s.data name = some hbt)
    (hnb : ¬ now < hbt.lastDone)
    (hsd : sameDate off now hbt.lastDone = false)
    (hgap : 0 < daysBetween hbt.lastDone now) :
    (track off now s fs name).store.data =
      setData s.data name { hbt with currentStreak := 1, lastDone := now } ∧
    (track off now s fs name).events =
      [Event.streakReset name (daysBetween hbt.lastDone now)] := by
  unfold track
  rw [hlook]
  simp only [hnb, if_false, hsd, Bool.false_eq_true, hgap, if_true]
  cases hs : saveStore
      ⟨s.path, setData s.data name { hbt with currentStreak := 1, lastDone := now }⟩ fs <;>
    simp [hs]

/-- Witness for C3: habit "run" last done at time 0, tracked one full day
plus one nanosecond later on the next day. -/
theorem track_gap_resets_streak_witness :
    lookupData [("run", ⟨"run", 7, 0⟩)] "run" = some ⟨"run", 7, 0⟩ ∧
    ¬ (86400000000001 : Int) < (0 : Int) ∧
    sameDate 0 86400000000001 0 = false ∧
    0 < daysBetween 0 86400000000001 ∧
    (track 0 86400000000001 ⟨"p", [("run", ⟨"run", 7, 0⟩)]⟩ fsEmpty "run").store.data =
      setData [("run", ⟨"run", 7, 0⟩)] "run" ⟨"run", 1, 86400000000001⟩ ∧
    (track 0 86400000000001 ⟨"p", [("run", ⟨"run", 7, 0⟩)]⟩ fsEmpty "run").events =
      [Event.streakReset "run" 1] :=
  ⟨by decide, by decide, by decide, by decide,
    track_gap_resets_streak 0 86400000000001 ⟨"p", [("run", ⟨"run", 7, 0⟩)]⟩
      fsEmpty "run" ⟨"run", 7, 0⟩ (by decide) (by decide) (by decide) (by decide)⟩

/-- C4: for a habit already in the store, when now is not before the
stored lastDone, the dates differ, and daysSince is zero, Track
increments currentStreak by exactly one and sets lastDone to now. -/
theorem track_next_day_extends_streak (off now : Int) (s : Store) (fs : FS)
    (name : String) (hbt : Habit)
    (hlook : lookupData s.data name = some hbt)
    (hnb : ¬ now < hbt.lastDone)
    (hsd : sameDate off now hbt.lastDone = false)
    (hzero : daysBetween hbt.lastDone now = 0) :
    (track off now s fs name).store.data =
      setData s.data name
        { hbt with currentStreak := hbt.currentStreak + 1, lastDone := now } ∧
    (track off now s fs name).events =
      [Event.streakExtended name (hbt.currentStreak + 1)] := by
  unfold track
  rw [hlook]
  simp only [hnb, if_false, hsd, Bool.false_eq_true, hzero, lt_irrefl, if_true]
  cases hs : saveStore
      ⟨s.path,
        setData s.data name
          { hbt with currentStreak := hbt.currentStreak + 1, lastDone := now }⟩ fs <;>
    simp [hs]

/-- Witness for C4: habit "run" last done one nanosecond before midnight,
tracked one hour later on the next day, under 24 hours elapsed. -/
theorem track_next_day_extends_streak_witness :
    lookupData [("run", ⟨"run", 1, 86399999999999⟩)] "run" =
      some ⟨"run", 1, 86399999999999⟩ ∧
    ¬ (90000000000000 : Int) < (86399999999999 : Int) ∧
    sameDate 0 90000000000000 86399999999999 = false ∧
    daysBetween 86399999999999 90000000000000 = 0 ∧
    (track 0 90000000000000 ⟨"p", [("run", ⟨"run", 1, 86399999999999⟩)]⟩
        fsEmpty "run").store.data =
      setData [("run", ⟨"run", 1, 86399999999999⟩)] "run" ⟨"run", 2, 90000000000000⟩ ∧
    (track 0 90000000000000 ⟨"p", [("run", ⟨"run", 1, 86399999999999⟩)]⟩
        fsEmpty "run").events = [Event.streakExtended "run" 2] :=
  ⟨by decide, by decide, by decide, by decide,
    track_next_day_extends_streak 0 90000000000000
      ⟨"p", [("run", ⟨"run", 1, 86399999999999⟩)]⟩ fsEmpty "run"
      ⟨"run", 1, 86399999999999⟩ (by decide) (by decide) (by decide) (by decide)⟩

/-- C5: for a name with no record in a store bound to a writable
(non-empty) path, Track creates a habit with that name, streak 1 and
lastDone now, persists the updated mapping to the path, emits the
new-habit message, and succeeds. -/
theorem track_new_habit_creates (off now : Int) (s : Store) (fs : FS)
    (name : String)
    (hlook : lookupData s.data name = none)
    (hpath : s.path ≠ "") :
    (track off now s fs name).store.data = setData s.data name ⟨name, 1, now⟩ ∧
    (track off now s fs name).fs =
      updateFS fs s.path (.good (setData s.data name ⟨name, 1, now⟩)) ∧
    (track off now s fs name).events = [Event.newHabit name] ∧
    (track off now s fs name).err = none := by
  unfold track
  rw [hlook]
  simp [saveStore, hpath]

/-- Helper: a member of `setData d k h` is either the new binding or a
member of the original list. -/
theorem mem_setData {d : StoreData} {k : String} {h : Habit} {p : String × Habit}
    (hp : p ∈ setData d k h) : p = (k, h) ∨ p ∈ d := by
  induction d with
  | nil => simpa [setData] using hp
  | cons q rest ih =>
    rw [setData] at hp
    by_cases hk : q.1 = k
    · rw [if_pos hk] at hp
      rcases List.mem_cons.mp hp with h1 | h1
      · exact Or.inl h1
      · exact Or.inr (List.mem_cons_of_mem _ h1)
    · rw [if_neg hk] at hp
      rcases List.mem_cons.mp hp with h1 | h1
      · exact Or.inr (h1 ▸ List.mem_cons_self _ _)
      · rcases ih h1 with h2 | h2
        · exact Or.inl h2
        · exact Or.inr (List.mem_cons_of_mem _ h2)

/-- Helper: a successful lookup exhibits the binding as a member. -/
theorem lookupData_mem {d : StoreData} {k : String} {h : Habit}
    (hl : lookupData d k = some h) : (k, h) ∈ d := by
  induction d with
  | nil => simp [lookupData] at hl
  | cons q rest ih =>
    rw [lookupData] at hl
    by_cases hk : q.1 = k
    · rw [if_pos hk] at hl
      injection hl with hl2
      obtain ⟨q1, q2⟩ := q
      simp only at hk hl2
      subst hk
      subst hl2
      exact List.mem_cons_self _ _
    · rw [if_neg hk] at hl
      exact List.mem_cons_of_mem _ (ih hl)

/-- Helper: the store data after a Track of an unseen name is the set of
the new streak-1 habit, whether or not the save succeeds. -/
theorem track_data_new (off now : Int) (s : Store) (fs : FS) (name : String)
    (hl : lookupData s.data name = none) :
    (track off now s fs name).store.data = setData s.data name ⟨name, 1, now⟩ := by
  unfold track
  rw [hl]
  cases hs : saveStore ⟨s.path, setData s.data name ⟨name, 1, now⟩⟩ fs <;> simp [hs]

/-- Helper: the store data is untouched by an out-of-order Track. -/
theorem track_data_oo (off now : Int) (s : Store) (fs : FS) (name : String)
    (hbt : Habit) (hl : lookupData s.data name = some hbt)
    (h1 : now < hbt.lastDone) :
    (track off now s fs name).store.data = s.data := by
  simp [track, hl, h1]

/-- Helper: an in-order Track of an existing habit rewrites exactly that
habit's record, with the streak kept, reset to 1, or incremented. -/
theorem track_data_existing (off now : Int) (s : Store) (fs : FS) (name : String)
    (hbt : Habit) (hl : lookupData s.data name = some hbt)
    (hnb : ¬ now < hbt.lastDone) :
    ∃ h' : Habit, (track off now s fs name).store.data = setData s.data name h' ∧
      (h'.currentStreak = hbt.currentStreak ∨ h'.currentStreak = 1 ∨
        h'.currentStreak = hbt.currentStreak + 1) := by
  by_cases h2 : sameDate off now hbt.lastDone = true
  · refine ⟨{ hbt with lastDone := now }, ?_, Or.inl rfl⟩
    unfold track
    rw [hl]
    cases hs : saveStore ⟨s.path, setData s.data name { hbt with lastDone := now }⟩ fs <;>
      simp [hnb, h2, hs]
  · by_cases h3 : 0 < daysBetween hbt.lastDone now
    · refine ⟨{ hbt with currentStreak := 1, lastDone := now }, ?_, Or.inr (Or.inl rfl)⟩
      unfold track
      rw [hl]
      cases hs : saveStore
          ⟨s.path, setData s.data name { hbt with currentStreak := 1, lastDone := now }⟩
          fs <;>
        simp [hnb, h2, h3, hs]
    · refine ⟨{ hbt with currentStreak := hbt.currentStreak + 1, lastDone := now }, ?_,
        Or.inr (Or.inr rfl)⟩
      unfold track
      rw [hl]
      cases hs : saveStore
          ⟨s.path,
            setData s.data name
              { hbt with currentStreak := hbt.currentStreak + 1, lastDone := now }⟩
          fs <;>
        simp [hnb, h2, h3, hs]

/-- Helper: a single Track call preserves the invariant that every habit
in the store has a streak of at least one. -/
theorem track_preserves_streak_pos (off now : Int) (s : Store) (fs : FS)
    (name : String)
    (hinv : ∀ p ∈ s.data, 1 ≤ p.2.currentStreak) :
    ∀ p ∈ (track off now s fs name).store.data, 1 ≤ p.2.currentStreak := by
  intro p hp
  cases hl : lookupData s.data name with
  | none =>
    rw [track_data_new off now s fs name hl] at hp
    rcases mem_setData hp with h3 | h3
    · simp [h3]
    · exact hinv p h3
  | some hbt =>
    have hstreak : 1 ≤ hbt.currentStreak := hinv _ (lookupData_mem hl)
    by_cases h1 : now < hbt.lastDone
    · rw [track_data_oo off now s fs name hbt hl h1] at hp
      exact hinv p hp
    · obtain ⟨h', hdata, hcs⟩ := track_data_existing off now s fs name hbt hl h1
      rw [hdata] at hp
      rcases mem_setData hp with h3 | h3
      · subst h3
        show 1 ≤ h'.currentStreak
        rcases hcs with hc | hc | hc <;> rw [hc] <;> omega
      · exact hinv p h3

/-- Helper: a whole run of Track calls preserves the streak invariant. -/
theorem runTrack_preserves_streak_pos (off : Int) (ops : List (Int × String)) :
    ∀ (s : Store) (fs : FS), (∀ p ∈ s.data, 1 ≤ p.2.currentStreak) →
      ∀ p ∈ (runTrack off ops s fs).1.data, 1 ≤ p.2.currentStreak := by
  induction ops with
  | nil =>
    intro s fs hinv p hp
    exact hinv p hp
  | cons op rest ih =>
    intro s fs hinv p hp
    obtain ⟨now, name⟩ := op
    rw [runTrack] at hp
    exact ih _ _ (track_preserves_streak_pos off now s fs name hinv) p hp

/-- C7: every habit in a store reached from the empty store by any
sequence of Track calls has a current streak of at least one. -/
theorem reachable_streak_ge_one (off : Int) (path : String)
    (ops : List (Int × String)) (fs : FS) (p : String × Habit)
    (hp : p ∈ (runTrack off ops ⟨path, []⟩ fs).1.data) :
    1 ≤ p.2.currentStreak :=
  runTrack_preserves_streak_pos off ops ⟨path, []⟩ fs
    (by intro q hq; simp at hq) p hp

/-- Witness for C7: the store reached by one Track of "a" at time 0
contains the habit "a" with streak 1. -/
theorem reachable_streak_ge_one_witness :
    ("a", (⟨"a", 1, 0⟩ : Habit)) ∈ (runTrack 0 [(0, "a")] ⟨"p", []⟩ fsEmpty).1.data ∧
    1 ≤ (("a", (⟨"a", 1, 0⟩ : Habit))).2.currentStreak :=
  ⟨by decide, reachable_streak_ge_one 0 "p" [(0, "a")] fsEmpty _ (by decide)⟩

/-- Helper: the summary loop emits the per-habit event list as a map. -/
theorem summaryLines_eq_map (now : Int) (d : StoreData) :
    summaryLines now d =
      d.map (fun q =>
        if 0 < daysBetween q.2.lastDone now then
          Event.inactive q.2.name (daysBetween q.2.lastDone now)
        else Event.onStreak q.2.name q.2.currentStreak) := by
  induction d with
  | nil => rfl
  | cons q rest ih => rw [summaryLines, List.map_cons, ih]

/-- C8: PrintSummary emits exactly the single no-habits message on an
empty store, and otherwise exactly one message per habit: the inactive
message carrying daysSince when daysSince is positive, otherwise the
current-streak message carrying currentStreak. -/
theorem printSummary_one_event_per_habit (now : Int) (d : StoreData) :
    printSummary now d =
      if d = [] then [Event.noHabits]
      else
        d.map (fun q =>
          if 0 < daysBetween q.2.lastDone now then
            Event.inactive q.2.name (daysBetween q.2.lastDone now)
          else Event.onStreak q.2.name q.2.currentStreak) := by
  unfold printSummary
  rcases d with _ | ⟨q, rest⟩
  · simp
  · simp [summaryLines_eq_map]

/-- C6: after any sequence of Sets on a store bound to some path and a
successful Save, a fresh Open of that path succeeds and returns a store
holding exactly the saved mapping. -/
theorem save_open_round_trip (path : String) (d0 sets : List (String × Habit))
    (fs fs' : FS)
    (hsave : saveStore (applySets sets ⟨path, d0⟩) fs = .ok fs') :
    openStore path fs' = .ok (applySets sets ⟨path, d0⟩) := by
  unfold saveStore at hsave
  by_cases hpath : path = ""
  · simp [applySets, hpath] at hsave
  · simp only [applySets] at hsave ⊢
    rw [if_neg hpath] at hsave
    injection hsave with hfs
    subst hfs
    simp [openStore, osOpen, updateFS, hpath]

/-- Witness for C6: one Set of habit "a" on an empty store at path "p",
saved to the empty filesystem, reads back on a fresh Open. -/
theorem save_open_round_trip_witness :
    saveStore (applySets [("a", ⟨"a", 1, 0⟩)] ⟨"p", []⟩) fsEmpty =
      .ok (updateFS fsEmpty "p" (.good [("a", ⟨"a", 1, 0⟩)])) ∧
    openStore "p" (updateFS fsEmpty "p" (.good [("a", ⟨"a", 1, 0⟩)])) =
      .ok (applySets [("a", ⟨"a", 1, 0⟩)] ⟨"p", []⟩) :=
  ⟨rfl, save_open_round_trip "p" [] [("a", ⟨"a", 1, 0⟩)] fsEmpty _ rfl⟩

/-- C9: opening the empty path succeeds with an empty transient store,
saving a store bound to the empty path always fails, and a Track call on
such a store never creates or writes any file. -/
theorem empty_path_store_transient (off now : Int) (fs : FS) (d : StoreData)
    (name : String) :
    openStore "" fs = .ok ⟨"", []⟩ ∧
    saveStore ⟨"", d⟩ fs = .error (PersistErr.createFailed "") ∧
    (track off now ⟨"", d⟩ fs name).fs = fs := by
  refine ⟨rfl, rfl, ?_⟩
  cases hl : lookupData d name with
  | none => simp [track, hl, saveStore]
  | some hbt =>
    by_cases h1 : now < hbt.lastDone
    · simp [track, hl, h1]
    · by_cases h2 : sameDate off now hbt.lastDone = true
      · simp [track, hl, h1, h2, saveStore]
      · by_cases h3 : 0 < daysBetween hbt.lastDone now
        · simp [track, hl, h1, h2, h3, saveStore]
        · simp [track, hl, h1, h2, h3, saveStore]

/-- C10: NewTracker opens the hardcoded path "habit.store" before any
option runs, so whenever that open fails it returns the open error for
every option list, including one that supplies a store via WithStore. -/
theorem newTracker_fails_when_default_open_fails (fs : FS) (e : PersistErr)
    (opts : List TrackerOpt)
    (hopen : openStore "habit.store" fs = .error e) :
    NewTracker fs opts = .error (TrackerError.persist e) := by
  unfold NewTracker
  rw [hopen]

/-- Witness for C10: with an undecodable "habit.store" on disk,
NewTracker fails even when WithStore supplies a store. -/
theorem newTracker_fails_when_default_open_fails_witness :
    openStore "habit.store" fsBadDefault =
      .error (PersistErr.decodeFailed "habit.store") ∧
    NewTracker fsBadDefault [WithStore ⟨"", []⟩] =
      .error (TrackerError.persist (PersistErr.decodeFailed "habit.store")) :=
  ⟨rfl, newTracker_fails_when_default_open_fails fsBadDefault
    (PersistErr.decodeFailed "habit.store") [WithStore ⟨"", []⟩] rfl⟩

/-- Witness for C5: tracking the unseen name "programming" at time 0 in
an empty store bound to path "p". -/
theorem track_new_habit_creates_witness :
    lookupData [] "programming" = none ∧
    ("p" : String) ≠ "" ∧
    (track 0 0 ⟨"p", []⟩ fsEmpty "programming").store.data =
      setData [] "programming" ⟨"programming", 1, 0⟩ ∧
    (track 0 0 ⟨"p", []⟩ fsEmpty "programming").fs =
      updateFS fsEmpty "p" (.good (setData [] "programming" ⟨"programming", 1, 0⟩)) ∧
    (track 0 0 ⟨"p", []⟩ fsEmpty "programming").events =
      [Event.newHabit "programming"] ∧
    (track 0 0 ⟨"p", []⟩ fsEmpty "programming").err = none :=
  ⟨by decide, by decide,
    track_new_habit_creates 0 0 ⟨"p", []⟩ fsEmpty "programming"
      (by decide) (by decide)⟩

end HabitTracker
